import Mathlib

/-!
Verification of the Skia GrDrawContext dispatch core (src/gpu/GrDrawContext.cpp).

The geometry and per-call decision logic of GrDrawContext is embedded shallowly:
scalars are exact rationals, external collaborators (clip queries, paint queries,
the instanced renderer, the path-renderer chain, GrShape style application) are
oracle fields of an `Env` record, and the observable behaviour of a call is the
final `DCState`: the draw-target handle bookkeeping plus the ordered log of
operations submitted to the deferred draw target.
-/

attribute [local semireducible] Rat.mul Rat.add Rat.sub Rat.inv

namespace Skia

abbrev Scalar := ℚ

abbrev GrColor := Nat

/-- Integer device rectangle (SkIRect), stored as left/top/right/bottom. -/
structure SkIRect where
  l : Int
  t : Int
  r : Int
  b : Int
deriving DecidableEq

def SkIRect.MakeWH (w h : Int) : SkIRect := ⟨0, 0, w, h⟩

/-- SkIRect::isEmpty: empty when width or height is non-positive. -/
def SkIRect.isEmpty (x : SkIRect) : Bool := decide (x.r ≤ x.l) || decide (x.b ≤ x.t)

/-- SkIRect::contains(const SkIRect&): inclusive containment of non-empty rects. -/
def SkIRect.containsR (x y : SkIRect) : Bool :=
  !y.isEmpty && !x.isEmpty &&
    decide (x.l ≤ y.l) && decide (x.t ≤ y.t) && decide (y.r ≤ x.r) && decide (y.b ≤ x.b)

/-- SkIRect::intersect: `some` of the intersection when both rects are non-empty
and properly overlap, `none` when the call would return false. -/
def SkIRect.intersectO (a b : SkIRect) : Option SkIRect :=
  if !a.isEmpty && !b.isEmpty && decide (a.l < b.r) && decide (b.l < a.r)
      && decide (a.t < b.b) && decide (b.t < a.b) then
    some ⟨max a.l b.l, max a.t b.t, min a.r b.r, min a.b b.b⟩
  else none

structure SkPoint where
  x : Scalar
  y : Scalar
deriving DecidableEq

/-- Scalar rectangle (SkRect). -/
structure SkRect where
  l : Scalar
  t : Scalar
  r : Scalar
  b : Scalar
deriving DecidableEq

def SkRect.isEmpty (x : SkRect) : Bool := decide (x.r ≤ x.l) || decide (x.b ≤ x.t)

def SkRect.width (x : SkRect) : Scalar := x.r - x.l

def SkRect.height (x : SkRect) : Scalar := x.b - x.t

def SkRect.Make (i : SkIRect) : SkRect := ⟨(i.l : ℚ), (i.t : ℚ), (i.r : ℚ), (i.b : ℚ)⟩

def SkRect.MakeIWH (w h : Int) : SkRect := ⟨0, 0, (w : ℚ), (h : ℚ)⟩

/-- SkRect::contains(const SkRect&): inclusive containment of non-empty rects. -/
def SkRect.containsRect (x y : SkRect) : Bool :=
  !y.isEmpty && !x.isEmpty &&
    decide (x.l ≤ y.l) && decide (x.t ≤ y.t) && decide (y.r ≤ x.r) && decide (y.b ≤ x.b)

/-- SkRect::intersect via CHECK_INTERSECT: `some` of the clamped intersection
exactly when max-of-lefts < min-of-rights and max-of-tops < min-of-bottoms. -/
def SkRect.intersectO (a b : SkRect) : Option SkRect :=
  if decide (max a.l b.l < min a.r b.r) && decide (max a.t b.t < min a.b b.b) then
    some ⟨max a.l b.l, max a.t b.t, min a.r b.r, min a.b b.b⟩
  else none

def SkRect.makeOutset (x : SkRect) (dx dy : Scalar) : SkRect :=
  ⟨x.l - dx, x.t - dy, x.r + dx, x.b + dy⟩

/-- static helper rect_contains_inclusive from GrDrawContext.cpp. -/
def rect_contains_inclusive (rect : SkRect) (p : SkPoint) : Bool :=
  decide (rect.l ≤ p.x) && decide (p.x ≤ rect.r) &&
  decide (rect.t ≤ p.y) && decide (p.y ≤ rect.b)

/-- Affine SkMatrix: maps (x, y) to
(scaleX*x + skewX*y + transX, skewY*x + scaleY*y + transY).
Perspective entries are not modelled; none of the verified paths uses them. -/
structure SkMatrix where
  scaleX : Scalar
  skewX : Scalar
  transX : Scalar
  skewY : Scalar
  scaleY : Scalar
  transY : Scalar
deriving DecidableEq

def SkMatrix.I : SkMatrix := ⟨1, 0, 0, 0, 1, 0⟩

def SkMatrix.mapPt (m : SkMatrix) (p : SkPoint) : SkPoint :=
  ⟨m.scaleX * p.x + m.skewX * p.y + m.transX,
   m.skewY * p.x + m.scaleY * p.y + m.transY⟩

/-- SkMatrix::mapRect for an affine matrix: map the four corners and bound them. -/
def SkMatrix.mapRect (m : SkMatrix) (x : SkRect) : SkRect :=
  let p0 := m.mapPt ⟨x.l, x.t⟩
  let p1 := m.mapPt ⟨x.r, x.t⟩
  let p2 := m.mapPt ⟨x.r, x.b⟩
  let p3 := m.mapPt ⟨x.l, x.b⟩
  ⟨min (min p0.x p1.x) (min p2.x p3.x),
   min (min p0.y p1.y) (min p2.y p3.y),
   max (max p0.x p1.x) (max p2.x p3.x),
   max (max p0.y p1.y) (max p2.y p3.y)⟩

/-- SkMatrix::mapRectToQuad: map the rect's corners in SkRect::toQuad order
(left-top, right-top, right-bottom, left-bottom). -/
def SkMatrix.mapRectToQuad (m : SkMatrix) (x : SkRect) :
    SkPoint × SkPoint × SkPoint × SkPoint :=
  (m.mapPt ⟨x.l, x.t⟩, m.mapPt ⟨x.r, x.t⟩, m.mapPt ⟨x.r, x.b⟩, m.mapPt ⟨x.l, x.b⟩)

def SkMatrix.det (m : SkMatrix) : Scalar := m.scaleX * m.scaleY - m.skewX * m.skewY

/-- SkMatrix::invert for an affine matrix: `none` iff the 2x2 part is singular. -/
def SkMatrix.invert (m : SkMatrix) : Option SkMatrix :=
  if m.det = 0 then none
  else
    some ⟨m.scaleY / m.det, -m.skewX / m.det,
          (m.skewX * m.transY - m.scaleY * m.transX) / m.det,
          -m.skewY / m.det, m.scaleX / m.det,
          (m.skewY * m.transX - m.scaleX * m.transY) / m.det⟩

/-- SkMatrix::rectStaysRect: scale (possibly with translation) with non-zero
scales, or a 90-degree rotation with non-zero skews. -/
def SkMatrix.rectStaysRect (m : SkMatrix) : Bool :=
  (decide (m.skewX = 0) && decide (m.skewY = 0)
    && decide (m.scaleX ≠ 0) && decide (m.scaleY ≠ 0)) ||
  (decide (m.scaleX = 0) && decide (m.scaleY = 0)
    && decide (m.skewX ≠ 0) && decide (m.skewY ≠ 0))

/-- SkMatrix::preservesRightAngles: non-degenerate 2x2 part whose two column
vectors are perpendicular (exact-arithmetic version of the tolerance test). -/
def SkMatrix.preservesRightAngles (m : SkMatrix) : Bool :=
  decide (m.det ≠ 0) && decide (m.scaleX * m.skewX + m.skewY * m.scaleY = 0)

/-- static helper view_matrix_ok_for_aa_fill_rect from GrDrawContext.cpp. -/
def view_matrix_ok_for_aa_fill_rect (m : SkMatrix) : Bool := m.preservesRightAngles

/-- Modelled from the spec: GrPaint (outside src/), reduced to the queries the
dispatch core makes of it.  `constBlendColor` is the answer of the spec's
constant-color-if-blendable query (GrPaint::isConstantBlendedColor) and
`xpSrcMode` records whether the transfer mode was set to the Porter-Duff
source ("replace") factory. -/
structure GrPaint where
  color : GrColor
  antiAlias : Bool
  xpSrcMode : Bool
  constBlendColor : Option GrColor
deriving DecidableEq

/-- The paint built inside GrDrawContext::clear on the draw-instead-of-clear
path: setColor4f of the clear color and setXPFactory(kSrc) make it a constant
blended color. -/
def clearPaint (c : GrColor) : GrPaint := ⟨c, false, true, some c⟩

inductive StrokeStyle
  | fillS
  | hairlineS
  | strokeS
  | strokeAndFillS
deriving DecidableEq

inductive JoinKind
  | miterJ
  | roundJ
  | bevelJ
deriving DecidableEq

/-- SkStrokeRec, reduced to the fields the dispatch core reads. -/
structure SkStrokeRec where
  style : StrokeStyle
  width : Scalar
  join : JoinKind
deriving DecidableEq

def SkStrokeRec.isFillStyle (s : SkStrokeRec) : Bool := decide (s.style = StrokeStyle.fillS)

/-- SkStrokeRec::needToApply: stroking geometry is pending. -/
def SkStrokeRec.needToApply (s : SkStrokeRec) : Bool :=
  decide (s.style = StrokeStyle.strokeS) || decide (s.style = StrokeStyle.strokeAndFillS)

/-- GrStyle: optional path effect plus a stroke record. -/
structure GrStyle where
  hasPathEffect : Bool
  strokeRec : SkStrokeRec
deriving DecidableEq

def GrStyle.simpleFill : GrStyle := ⟨false, ⟨StrokeStyle.fillS, 0, JoinKind.miterJ⟩⟩

/-- GrStyle::applies: a path effect or pending stroke remains. -/
def GrStyle.applies (st : GrStyle) : Bool := st.hasPathEffect || st.strokeRec.needToApply

def GrStyle.isSimpleFill (st : GrStyle) : Bool :=
  !st.hasPathEffect && decide (st.strokeRec.style = StrokeStyle.fillS)

inductive SkFillType
  | winding
  | evenOdd
  | inverseWinding
  | inverseEvenOdd
deriving DecidableEq

/-- SkPath, reduced to the geometric queries the dispatch core makes.
`nestedRects` is the answer of SkPath::isNestedFillRects (outer rect, inner
rect, and the two contour directions encoded as Bool). -/
structure SkPath where
  isEmptyPath : Bool
  fillType : SkFillType
  isConvexPath : Bool
  nestedRects : Option (SkRect × SkRect × Bool × Bool)
  ovalRect : Option SkRect
deriving DecidableEq

def SkPath.isInverseFillType (p : SkPath) : Bool :=
  decide (p.fillType = SkFillType.inverseWinding) ||
  decide (p.fillType = SkFillType.inverseEvenOdd)

/-- The volatile single-rect path built by the drawRect fallbacks:
one rect contour, winding fill, convex, neither nested rects nor an oval. -/
def SkPath.ofRect (_r : SkRect) : SkPath := ⟨false, SkFillType.winding, true, none, none⟩

/-- SkRRect, reduced to the data the dispatch core reads. -/
structure RRectT where
  rect : SkRect
  rx : Scalar
  ry : Scalar
deriving DecidableEq

def RRectT.MakeRectXY (r : SkRect) (rx ry : Scalar) : RRectT := ⟨r, rx, ry⟩

def RRectT.isEmptyRR (rr : RRectT) : Bool := rr.rect.isEmpty

/-- The volatile rrect path built by the drawRRect fallback. -/
def SkPath.ofRRect (_rr : RRectT) : SkPath := ⟨false, SkFillType.winding, true, none, none⟩

/-- Modelled from the spec: GrClip (outside src/), reduced to the two
conservative queries the spec gives it — quick-containment of a rect and
conservative device bounds. -/
inductive GrClip
  | noClip
  | rectClip (r : SkIRect)
deriving DecidableEq

def GrClip.quickContains (c : GrClip) (q : SkRect) : Bool :=
  match c with
  | GrClip.noClip => true
  | GrClip.rectClip cr => (SkRect.Make cr).containsRect q

def GrClip.getConservativeBounds (c : GrClip) (w h : Int) : SkIRect :=
  match c with
  | GrClip.noClip => SkIRect.MakeWH w h
  | GrClip.rectClip cr =>
    match cr.intersectO (SkIRect.MakeWH w h) with
    | some i => i
    | none => ⟨0, 0, 0, 0⟩

/-- Modelled from the spec: GrShape (outside src/) — an opaque geometry tag
(derived by the external GrShape constructor / applyStyle oracles), an
emptiness flag, and the pending style. -/
structure GrShape where
  geom : Nat
  emptyShape : Bool
  style : GrStyle
deriving DecidableEq

/-- The batches the dispatch core can submit.  Batch factories are external;
each constructor records exactly the arguments the core hands the factory. -/
inductive GrBatch
  | clearB (rect : SkIRect) (color : GrColor)
  | nonAAFill (color : GrColor) (vm : SkMatrix) (rect : SkRect)
      (localRect : Option SkRect) (localMatrix : Option SkMatrix)
  | aaFill (color : GrColor) (vm : SkMatrix) (rect : SkRect) (devRect : SkRect)
  | aaStroke (color : GrColor) (vm : SkMatrix) (rect : SkRect) (stroke : SkStrokeRec)
  | nonAAStroke (color : GrColor) (vm : SkMatrix) (rect : SkRect)
      (stroke : SkStrokeRec) (snap : Bool)
  | aaFillNestedRects (color : GrColor) (vm : SkMatrix) (outerR innerR : SkRect)
  | instancedB (tag : Nat)
  | ovalB (tag : Nat)
  | rrectB (tag : Nat)
deriving DecidableEq

/-- GrPipelineBuilder, as constructed from (paint, useHWAA) plus the optional
user-stencil settings and the snap-to-pixel-centers state flag. -/
structure GrPipelineBuilder where
  paint : GrPaint
  useHWAA : Bool
  userStencil : Option Nat
  snapVerticesToPixelCenters : Bool
deriving DecidableEq

/-- Operations the draw context sends to its collaborators; the ordered log of
these is the observable behaviour of a call. -/
inductive TOp
  | addBatch (b : GrBatch)
  | drawBatchOp (pb : GrPipelineBuilder) (clip : GrClip) (b : GrBatch)
  | discardOp
  | rendererDraw (renderer : Nat) (shape : GrShape) (aa : Bool)
  | copySurfaceOp (srcRect : SkIRect) (dx dy : Int)
deriving DecidableEq

/-- The draw-target bookkeeping: the held handle, the render target's
most-recently-issued target, the next fresh id the manager would issue, and
the set of targets that have been closed. -/
structure TargetState where
  held : Option Nat
  lastIssued : Option Nat
  nextId : Nat
  closed : List Nat
deriving DecidableEq

def TargetState.isClosedId (ts : TargetState) (i : Nat) : Bool := ts.closed.contains i

/-- The lazy-reacquisition condition of GrDrawContext::getDrawTarget:
`!fDrawTarget || fDrawTarget->isClosed()`. -/
def TargetState.needsNew (ts : TargetState) : Bool :=
  match ts.held with
  | none => true
  | some t => ts.isClosedId t

/-- Modelled from the spec: the owning manager's newDrawTarget issues a fresh
target and records it as the render target's most-recently-issued one. -/
def TargetState.alloc (ts : TargetState) : Nat × TargetState :=
  (ts.nextId, ⟨some ts.nextId, some ts.nextId, ts.nextId + 1, ts.closed⟩)

/-- GrDrawContext::getDrawTarget: reuse the held handle when open, otherwise
request a fresh target from the manager. -/
def getDrawTarget (ts : TargetState) : Nat × TargetState :=
  if ts.needsNew then ts.alloc else (ts.held.getD 0, ts)

/-- Draw-context state: target bookkeeping plus the submitted-operation log. -/
structure DCState where
  ts : TargetState
  log : List TOp
deriving DecidableEq

def stepDT (s : DCState) : DCState := ⟨(getDrawTarget s.ts).2, s.log⟩

def emitOp (o : TOp) (s : DCState) : DCState := ⟨s.ts, s.log ++ [o]⟩

/-- Modelled from the spec: the backend capability bits GrDrawContext::clear
reads (GrCaps, outside src/). -/
structure GrCaps where
  fullClearIsFree : Bool
  useDrawInsteadOfClear : Bool
deriving DecidableEq

/-- Modelled from the spec: the Instanced Renderer capability
(gr_instanced::InstancedRendering, outside src/) — each record call may yield a
batch tag plus its hardware-AA choice, and a null result means not
applicable. -/
structure InstOracle where
  recordRect : SkRect → SkMatrix → GrColor → Bool → Option (Nat × Bool)
  recordRRect : RRectT → SkMatrix → GrColor → Bool → Option (Nat × Bool)

/-- GrPathRenderer::CanDrawPathArgs, reduced to the fields the core fills in. -/
structure CanDrawArgs where
  shape : GrShape
  vm : SkMatrix
  antiAlias : Bool
  hasUserStencilSettings : Bool
  isStencilBufferMSAA : Bool
deriving DecidableEq

/-- One renderer-chain query as issued by internalDrawPath: the can-draw
arguments plus the allow-software flag and the requested draw type
(true = kColorAntiAlias_DrawType, false = kColor_DrawType). -/
structure PRQuery where
  args : CanDrawArgs
  allowSW : Bool
  drawTypeAA : Bool
deriving DecidableEq

/-- The fixed environment of one call: liveness, render-target properties,
capabilities, and the external-collaborator oracles. -/
structure Env where
  abandoned : Bool
  rtWidth : Int
  rtHeight : Int
  rtUnifiedMultisampled : Bool
  rtStencilMSAA : Bool
  caps : GrCaps
  instanced : Option InstOracle
  pathRendererFor : CanDrawArgs → Bool → Bool → Option Nat
  mkShapeGeom : SkPath → GrStyle → Nat × Bool
  applyStyleGeom : GrShape → Bool → Scalar → Nat × Bool
  matrixToScaleFactor : SkMatrix → Scalar
  ovalBatchFor : GrColor → SkMatrix → SkRect → SkStrokeRec → Option Nat
  rrectBatchFor : GrColor → SkMatrix → RRectT → SkStrokeRec → Option Nat
  copyOk : SkIRect → Int → Int → Bool

def Env.rtIRect (e : Env) : SkIRect := SkIRect.MakeWH e.rtWidth e.rtHeight

/-- GrRenderTarget::getBoundsRect. -/
def Env.rtRectQ (e : Env) : SkRect := SkRect.Make e.rtIRect

/-- static helper should_apply_coverage_aa: its Bool result. -/
def shouldApplyCoverageAA (paint : GrPaint) (e : Env) : Bool :=
  paint.antiAlias && !e.rtUnifiedMultisampled

/-- The useHWAA out-parameter set by should_apply_coverage_aa. -/
def hwAAFromPaint (paint : GrPaint) (e : Env) : Bool :=
  paint.antiAlias && e.rtUnifiedMultisampled

/-- GrDrawContext::mustUseHWAA. -/
def mustUseHWAA (paint : GrPaint) (e : Env) : Bool :=
  paint.antiAlias && e.rtUnifiedMultisampled

/-- static helper crop_filled_rect (single-rect form, as used by
drawFilledRect): `some cropped` when the draw proceeds with the cropped rect,
`none` when the draw can be skipped entirely. -/
def crop_filled_rect (e : Env) (clip : GrClip) (vm : SkMatrix) (rect : SkRect) :
    Option SkRect :=
  if !vm.rectStaysRect then some rect
  else
    match vm.invert with
    | none => none
    | some inv =>
      let clipDevBounds := clip.getConservativeBounds e.rtWidth e.rtHeight
      rect.intersectO (inv.mapRect (SkRect.Make clipDevBounds))

/-- GrDrawContext::drawNonAAFilledRect. -/
def drawNonAAFilledRect (e : Env) (clip : GrClip) (paint : GrPaint) (vm : SkMatrix)
    (rect : SkRect) (localRect : Option SkRect) (localMatrix : Option SkMatrix)
    (ss : Option Nat) (s : DCState) : DCState :=
  emitOp
    (TOp.drawBatchOp ⟨paint, mustUseHWAA paint e, ss, false⟩ clip
      (GrBatch.nonAAFill paint.color vm rect localRect localMatrix))
    (stepDT s)

/-- GrDrawContext::drawFilledRect: the Bool result plus the state after. -/
def drawFilledRect (e : Env) (clip : GrClip) (paint : GrPaint) (vm : SkMatrix)
    (rect : SkRect) (ss : Option Nat) (s : DCState) : Bool × DCState :=
  match crop_filled_rect e clip vm rect with
  | none => (true, s)
  | some croppedRect =>
    let s1 := stepDT s
    let irRes : Option (Nat × Bool) :=
      match e.instanced with
      | some ir => ir.recordRect croppedRect vm paint.color paint.antiAlias
      | none => none
    match irRes with
    | some (tag, hw) =>
      (true,
       emitOp (TOp.drawBatchOp ⟨paint, hw, ss, false⟩ clip (GrBatch.instancedB tag)) (stepDT s1))
    | none =>
      if shouldApplyCoverageAA paint e then
        if view_matrix_ok_for_aa_fill_rect vm then
          (true,
           emitOp
             (TOp.drawBatchOp ⟨paint, hwAAFromPaint paint e, ss, false⟩ clip
               (GrBatch.aaFill paint.color vm croppedRect (vm.mapRect croppedRect)))
             (stepDT s1))
        else (false, s1)
      else (true, drawNonAAFilledRect e clip paint vm croppedRect none none ss s1)

/-- Build a GrShape from a path and style; geometry and emptiness come from the
external GrShape constructor oracle, the pending style is the given style. -/
def shapeOf (e : Env) (path : SkPath) (style : GrStyle) : GrShape :=
  ⟨(e.mkShapeGeom path style).1, (e.mkShapeGeom path style).2, style⟩

/-- Modelled from the spec: GrShape::applyStyle (outside src/) —
kPathEffectOnly keeps the stroke record pending, kPathEffectAndStrokeRec
leaves a simple fill; geometry from the oracle. -/
def applyStyleShape (e : Env) (sh : GrShape) (pathEffectOnly : Bool) (scale : Scalar) :
    GrShape :=
  if pathEffectOnly then
    ⟨(e.applyStyleGeom sh true scale).1, (e.applyStyleGeom sh true scale).2,
     ⟨false, sh.style.strokeRec⟩⟩
  else
    ⟨(e.applyStyleGeom sh false scale).1, (e.applyStyleGeom sh false scale).2,
     GrStyle.simpleFill⟩

def mkQuery (sh : GrShape) (vm : SkMatrix) (aa msaa allowSW : Bool) : PRQuery :=
  ⟨⟨sh, vm, aa, false, msaa⟩, allowSW, aa⟩

/-- internalDrawPath epilogue: no renderer means a silent drop, otherwise the
chosen renderer draws the resolved shape. -/
def idpFinish (aa : Bool) (sh : GrShape) (pr : Option Nat) (qs : List PRQuery)
    (s : DCState) : DCState × List PRQuery :=
  match pr with
  | none => (s, qs)
  | some r => (emitOp (TOp.rendererDraw r sh aa) s, qs)

/-- internalDrawPath third tier: fully apply the style when it still applies,
then query the chain once more with software allowed. -/
def idpTier3 (e : Env) (vm : SkMatrix) (aa msaa : Bool) (scale : Scalar)
    (sh : GrShape) (qs : List PRQuery) (s : DCState) : DCState × List PRQuery :=
  if sh.style.applies then
    let sh2 := applyStyleShape e sh false scale
    if sh2.emptyShape then (s, qs)
    else
      idpFinish aa sh2 (e.pathRendererFor ⟨sh2, vm, aa, false, msaa⟩ true aa)
        (qs ++ [mkQuery sh2 vm aa msaa true]) s
  else
    idpFinish aa sh (e.pathRendererFor ⟨sh, vm, aa, false, msaa⟩ true aa)
      (qs ++ [mkQuery sh vm aa msaa true]) s

/-- internalDrawPath second tier: if the first query failed and the style still
carries a path effect, apply the path effect only and re-query (software still
disallowed); otherwise continue to the third tier. -/
def idpTier2 (e : Env) (vm : SkMatrix) (aa msaa : Bool) (scale : Scalar)
    (sh0 : GrShape) (pr1 : Option Nat) (qs : List PRQuery) (s : DCState) :
    DCState × List PRQuery :=
  match pr1 with
  | some r => idpFinish aa sh0 (some r) qs s
  | none =>
    if sh0.style.hasPathEffect then
      let sh1 := applyStyleShape e sh0 true scale
      if sh1.emptyShape then (s, qs)
      else
        match e.pathRendererFor ⟨sh1, vm, aa, false, msaa⟩ false aa with
        | some r => idpFinish aa sh1 (some r) (qs ++ [mkQuery sh1 vm aa msaa false]) s
        | none => idpTier3 e vm aa msaa scale sh1 (qs ++ [mkQuery sh1 vm aa msaa false]) s
    else idpTier3 e vm aa msaa scale sh0 qs s

/-- GrDrawContext::internalDrawPath.  Returns the state after the call together
with the ordered list of renderer-chain queries it issued. -/
def internalDrawPath (e : Env) (clip : GrClip) (paint : GrPaint) (vm : SkMatrix)
    (path : SkPath) (style : GrStyle) (s : DCState) : DCState × List PRQuery :=
  if e.abandoned then (s, [])
  else
    let aa := shouldApplyCoverageAA paint e
    let msaa := e.rtStencilMSAA
    let sh0 := shapeOf e path style
    if sh0.emptyShape then (s, [])
    else
      idpTier2 e vm aa msaa (e.matrixToScaleFactor vm) sh0
        (e.pathRendererFor ⟨sh0, vm, aa, false, msaa⟩ false aa)
        [mkQuery sh0 vm aa msaa false] s

def SK_ScalarNearlyZero : Scalar := 1 / 4096

/-- SkScalarNearlyEqual with the default tolerance. -/
def SkScalarNearlyEqual (x y : Scalar) : Bool := decide (|x - y| ≤ SK_ScalarNearlyZero)

/-- static helper fills_as_nested_rects: `some (outer, inner)` exactly when the
source function returns true, having filled rects[2]. -/
def fills_as_nested_rects (vm : SkMatrix) (path : SkPath) : Option (SkRect × SkRect) :=
  if path.isInverseFillType then none
  else if !vm.rectStaysRect then none
  else
    match path.nestedRects with
    | none => none
    | some (r0, r1, d0, d1) =>
      if decide (path.fillType = SkFillType.winding) && decide (d0 = d1) then none
      else
        let mL := |r0.l - r1.l|
        let mT := |r0.t - r1.t|
        let mR := |r0.r - r1.r|
        let mB := |r0.b - r1.b|
        let allEq := SkScalarNearlyEqual mL mT && SkScalarNearlyEqual mL mR &&
          SkScalarNearlyEqual mL mB
        let allGoE1 := decide (1 ≤ mL) && decide (1 ≤ mT) && decide (1 ≤ mR) &&
          decide (1 ≤ mB)
        if allEq || allGoE1 then some (r0, r1) else none

/-- drawRRect after the instanced attempt: oval-renderer rrect batch when
coverage AA applies, otherwise fall back to general path drawing. -/
def drawRRectCover (e : Env) (clip : GrClip) (paint : GrPaint) (vm : SkMatrix)
    (rr : RRectT) (style : GrStyle) (s : DCState) : DCState :=
  if shouldApplyCoverageAA paint e then
    match e.rrectBatchFor paint.color vm rr style.strokeRec with
    | some tag =>
      emitOp
        (TOp.drawBatchOp ⟨paint, hwAAFromPaint paint e, none, false⟩ clip (GrBatch.rrectB tag))
        (stepDT s)
    | none => (internalDrawPath e clip paint vm (SkPath.ofRRect rr) style s).1
  else (internalDrawPath e clip paint vm (SkPath.ofRRect rr) style s).1

/-- GrDrawContext::drawRRect. -/
def drawRRectF (e : Env) (clip : GrClip) (paint : GrPaint) (vm : SkMatrix)
    (rr : RRectT) (style : GrStyle) (s : DCState) : DCState :=
  if e.abandoned then s
  else if rr.isEmptyRR then s
  else
    let s1 := stepDT s
    match e.instanced with
    | some ir =>
      if style.strokeRec.isFillStyle then
        match ir.recordRRect rr vm paint.color paint.antiAlias with
        | some (tag, hw) =>
          emitOp (TOp.drawBatchOp ⟨paint, hw, none, false⟩ clip (GrBatch.instancedB tag))
            (stepDT (stepDT s1))
        | none => drawRRectCover e clip paint vm rr style (stepDT s1)
      else drawRRectCover e clip paint vm rr style s1
    | none => drawRRectCover e clip paint vm rr style s1

/-- GrDrawContext::discard. -/
def discardF (e : Env) (s : DCState) : DCState :=
  if e.abandoned then s else emitOp TOp.discardOp (stepDT s)

/-- The rect GrDrawContext::clear ends up clearing, with a flag recording
whether it is the substituted whole-target rect (the `rect == &rtRect` pointer
test); `none` when the clip-out intersection is empty and the call no-ops. -/
def clearEffRect (e : Env) (ro : Option SkIRect) (canIgnoreRect : Bool) :
    Option (SkIRect × Bool) :=
  match ro with
  | none => some (e.rtIRect, true)
  | some r =>
    if canIgnoreRect && e.caps.fullClearIsFree then some (e.rtIRect, true)
    else if r.containsR e.rtIRect then some (e.rtIRect, true)
    else
      match r.intersectO e.rtIRect with
      | none => none
      | some cr => some (cr, false)

/-- The non-degenerate stroked-rect tail of GrDrawContext::drawRect: an AA
stroke batch when the matrix keeps the rect axis-aligned, a (possibly
pixel-center-snapped) non-AA stroke batch otherwise, with a path fallback. -/
def strokeRectDirect (e : Env) (clip : GrClip) (paint : GrPaint) (vm : SkMatrix)
    (rect : SkRect) (stroke : SkStrokeRec) (style : GrStyle) (s : DCState) : DCState :=
  let batchSnap : Option (GrBatch × Bool) :=
    if shouldApplyCoverageAA paint e then
      if vm.rectStaysRect then some (GrBatch.aaStroke paint.color vm rect stroke, false)
      else none
    else
      let snap := decide (stroke.style = StrokeStyle.hairlineS) && !e.rtUnifiedMultisampled
      some (GrBatch.nonAAStroke paint.color vm rect stroke snap, snap)
  match batchSnap with
  | some (b, snap) =>
    emitOp (TOp.drawBatchOp ⟨paint, hwAAFromPaint paint e, none, snap⟩ clip b) (stepDT s)
  | none => (internalDrawPath e clip paint vm (SkPath.ofRect rect) style s).1

mutual

/-- GrDrawContext::clear, with a fuel bound on the clear/drawRect mutual
recursion (fuel 3 suffices for every call from the public surface). -/
def clearF : Nat → Env → Option SkIRect → GrColor → Bool → DCState → DCState
  | 0, _, _, _, _, s => s
  | n + 1, e, ro, color, canIgnoreRect, s =>
    if e.abandoned then s
    else
      match clearEffRect e ro canIgnoreRect with
      | none => s
      | some (rect, whole) =>
        if e.caps.useDrawInsteadOfClear then
          drawRectF n e GrClip.noClip (clearPaint color) SkMatrix.I (SkRect.Make rect) none
            (if whole then discardF e s else s)
        else emitOp (TOp.addBatch (GrBatch.clearB rect color)) (stepDT s)

/-- GrDrawContext::drawRect (style argument `none` = default simple fill). -/
def drawRectF : Nat → Env → GrClip → GrPaint → SkMatrix → SkRect → Option GrStyle →
    DCState → DCState
  | 0, _, _, _, _, _, _, s => s
  | n + 1, e, clip, paint, vm, rect, styleO, s =>
    let style := styleO.getD GrStyle.simpleFill
    if e.abandoned then s
    else
      let stroke := style.strokeRec
      if stroke.style = StrokeStyle.fillS then
        let handled : Option DCState :=
          if e.caps.useDrawInsteadOfClear then none
          else if clip.quickContains e.rtRectQ then
            match vm.invert with
            | none => some s
            | some invM =>
              let quad := invM.mapRectToQuad e.rtRectQ
              if rect_contains_inclusive rect quad.1 &&
                  rect_contains_inclusive rect quad.2.1 &&
                  rect_contains_inclusive rect quad.2.2.1 &&
                  rect_contains_inclusive rect quad.2.2.2 then
                match paint.constBlendColor with
                | some c => some (clearF n e none c true s)
                | none => none
              else none
          else none
        match handled with
        | some s2 => s2
        | none =>
          match drawFilledRect e clip paint vm rect none s with
          | (true, s2) => s2
          | (false, s2) => (internalDrawPath e clip paint vm (SkPath.ofRect rect) style s2).1
      else if stroke.style = StrokeStyle.strokeS ∨ stroke.style = StrokeStyle.hairlineS then
        if (decide (rect.width = 0) || decide (rect.height = 0)) &&
            !decide (stroke.style = StrokeStyle.hairlineS) then
          let r := stroke.width / 2
          match stroke.join with
          | JoinKind.miterJ =>
            drawRectF n e clip paint vm ⟨rect.l - r, rect.t - r, rect.r + r, rect.b + r⟩
              (some GrStyle.simpleFill) s
          | JoinKind.roundJ =>
            if decide (rect.width ≠ 0) || decide (rect.height ≠ 0) then
              drawRRectF e clip paint vm (RRectT.MakeRectXY (rect.makeOutset r r) r r)
                GrStyle.simpleFill s
            else if decide (rect.width = 0) then
              drawRectF n e clip paint vm ⟨rect.l - r, rect.t, rect.r + r, rect.b⟩
                (some GrStyle.simpleFill) s
            else
              drawRectF n e clip paint vm ⟨rect.l, rect.t - r, rect.r, rect.b + r⟩
                (some GrStyle.simpleFill) s
          | JoinKind.bevelJ =>
            if decide (rect.width = 0) then
              drawRectF n e clip paint vm ⟨rect.l - r, rect.t, rect.r + r, rect.b⟩
                (some GrStyle.simpleFill) s
            else
              drawRectF n e clip paint vm ⟨rect.l, rect.t - r, rect.r, rect.b + r⟩
                (some GrStyle.simpleFill) s
        else strokeRectDirect e clip paint vm rect stroke style s
      else (internalDrawPath e clip paint vm (SkPath.ofRect rect) style s).1

end

/-- Public GrDrawContext::clear. -/
def clearC (e : Env) (ro : Option SkIRect) (color : GrColor) (canIgnoreRect : Bool)
    (s : DCState) : DCState :=
  clearF 3 e ro color canIgnoreRect s

/-- Public GrDrawContext::drawRect. -/
def drawRectC (e : Env) (clip : GrClip) (paint : GrPaint) (vm : SkMatrix)
    (rect : SkRect) (styleO : Option GrStyle) (s : DCState) : DCState :=
  drawRectF 3 e clip paint vm rect styleO s

/-- GrDrawContext::drawPaint (non-perspective branch; the embedding's matrices
are affine). -/
def drawPaintF (e : Env) (clip : GrClip) (origPaint : GrPaint) (vm : SkMatrix)
    (s : DCState) : DCState :=
  if e.abandoned then s
  else
    let r := SkRect.MakeIWH e.rtWidth e.rtHeight
    let paint := { origPaint with antiAlias := false }
    match vm.invert with
    | none => s
    | some inverse => drawRectF 3 e clip paint vm (inverse.mapRect r) none s

/-- The oval-fast-path-or-fallback tail of GrDrawContext::drawPath. -/
def drawPathOvalOrPath (e : Env) (clip : GrClip) (paint : GrPaint) (vm : SkMatrix)
    (path : SkPath) (style : GrStyle) (s : DCState) : DCState :=
  match path.ovalRect with
  | some ov =>
    if !path.isInverseFillType then
      match e.ovalBatchFor paint.color vm ov style.strokeRec with
      | some tag =>
        emitOp
          (TOp.drawBatchOp ⟨paint, hwAAFromPaint paint e, none, false⟩ clip (GrBatch.ovalB tag))
          (stepDT s)
      | none => (internalDrawPath e clip paint vm path style s).1
    else (internalDrawPath e clip paint vm path style s).1
  | none => (internalDrawPath e clip paint vm path style s).1

/-- GrDrawContext::drawPath. -/
def drawPathF (e : Env) (clip : GrClip) (paint : GrPaint) (vm : SkMatrix)
    (path : SkPath) (style : GrStyle) (s : DCState) : DCState :=
  if e.abandoned then s
  else if path.isEmptyPath then
    if path.isInverseFillType then drawPaintF e clip paint vm s else s
  else if shouldApplyCoverageAA paint e && !style.hasPathEffect then
    if style.isSimpleFill && !path.isConvexPath then
      match fills_as_nested_rects vm path with
      | some (r0, r1) =>
        emitOp
          (TOp.drawBatchOp ⟨paint, hwAAFromPaint paint e, none, false⟩ clip
            (GrBatch.aaFillNestedRects paint.color vm r0 r1))
          (stepDT s)
      | none => drawPathOvalOrPath e clip paint vm path style s
    else drawPathOvalOrPath e clip paint vm path style s
  else (internalDrawPath e clip paint vm path style s).1

/-- GrDrawContext::copySurface. -/
def copySurfaceF (e : Env) (srcRect : SkIRect) (dx dy : Int) (s : DCState) :
    Bool × DCState :=
  if e.abandoned then (false, s)
  else (e.copyOk srcRect dx dy, emitOp (TOp.copySurfaceOp srcRect dx dy) (stepDT s))

/-- GrDrawContext::drawBatch (public re-submission entry point). -/
def drawBatchF (e : Env) (pb : GrPipelineBuilder) (clip : GrClip) (b : GrBatch)
    (s : DCState) : DCState :=
  if e.abandoned then s else emitOp (TOp.drawBatchOp pb clip b) (stepDT s)

/-- The modelled public entry points of the Draw Context. -/
inductive Call
  | clearE (ro : Option SkIRect) (color : GrColor) (canIgnoreRect : Bool)
  | discardE
  | drawRectE (clip : GrClip) (paint : GrPaint) (vm : SkMatrix) (rect : SkRect)
      (styleO : Option GrStyle)
  | drawRRectE (clip : GrClip) (paint : GrPaint) (vm : SkMatrix) (rr : RRectT)
      (style : GrStyle)
  | drawPaintE (clip : GrClip) (paint : GrPaint) (vm : SkMatrix)
  | drawPathE (clip : GrClip) (paint : GrPaint) (vm : SkMatrix) (path : SkPath)
      (style : GrStyle)
  | drawBatchE (pb : GrPipelineBuilder) (clip : GrClip) (b : GrBatch)
  | copySurfaceE (srcRect : SkIRect) (dx dy : Int)

/-- Run one public entry point; the second component is the returned Bool for
Bool-returning entries and `none` for void entries. -/
def dispatch (c : Call) (e : Env) (s : DCState) : DCState × Option Bool :=
  match c with
  | Call.clearE ro color ign => (clearC e ro color ign s, none)
  | Call.discardE => (discardF e s, none)
  | Call.drawRectE clip paint vm rect styleO => (drawRectC e clip paint vm rect styleO s, none)
  | Call.drawRRectE clip paint vm rr style => (drawRRectF e clip paint vm rr style s, none)
  | Call.drawPaintE clip paint vm => (drawPaintF e clip paint vm s, none)
  | Call.drawPathE clip paint vm path style => (drawPathF e clip paint vm path style s, none)
  | Call.drawBatchE pb clip b => (drawBatchF e pb clip b s, none)
  | Call.copySurfaceE srcRect dx dy =>
    ((copySurfaceF e srcRect dx dy s).2, some (copySurfaceF e srcRect dx dy s).1)

/-- The shape internalDrawPath's second tier queries with: path effect applied
only. -/
def tier2Shape (e : Env) (path : SkPath) (style : GrStyle) (vm : SkMatrix) : GrShape :=
  applyStyleShape e (shapeOf e path style) true (e.matrixToScaleFactor vm)

/-- The shape internalDrawPath's third tier queries with: the second-tier shape
(or the original when no path effect), with any remaining style fully applied. -/
def tier3Shape (e : Env) (path : SkPath) (style : GrStyle) (vm : SkMatrix) : GrShape :=
  let sh1 := if style.hasPathEffect then tier2Shape e path style vm else shapeOf e path style
  if sh1.style.applies then applyStyleShape e sh1 false (e.matrixToScaleFactor vm) else sh1

/-- The target-handle invariant: a held open handle is the render target's
most-recently-issued target, and every closed id is below the allocator. -/
def TSInvB (ts : TargetState) : Bool :=
  (match ts.held with
   | none => true
   | some t => ts.isClosedId t || (ts.lastIssued == some t)) &&
  ts.closed.all (fun i => decide (i < ts.nextId))

/-- A fresh initial draw-context state. -/
def s0 : DCState := ⟨⟨none, none, 0, []⟩, []⟩

/-- A target state holding an already-closed draw-target handle. -/
def ts1 : TargetState := ⟨some 0, some 0, 1, [0]⟩

/-- A plain 100x100 non-multisampled environment with trivial oracles. -/
def env0 : Env := {
  abandoned := false,
  rtWidth := 100,
  rtHeight := 100,
  rtUnifiedMultisampled := false,
  rtStencilMSAA := false,
  caps := ⟨false, false⟩,
  instanced := none,
  pathRendererFor := fun _ _ _ => none,
  mkShapeGeom := fun _ _ => (0, false),
  applyStyleGeom := fun sh pe _ => (if pe then sh.geom + 1 else sh.geom + 2, false),
  matrixToScaleFactor := fun _ => 1,
  ovalBatchFor := fun _ _ _ _ => none,
  rrectBatchFor := fun _ _ _ _ => none,
  copyOk := fun _ _ _ => true }

/-- A 4x4 environment on a backend with the draw-instead-of-clear workaround. -/
def envDrawInstead : Env := { env0 with rtWidth := 4, rtHeight := 4, caps := ⟨false, true⟩ }

/-- env0 with the context abandoned. -/
def envAb : Env := { env0 with abandoned := true }

/-- A 4x4 environment without the draw-instead-of-clear workaround. -/
def envSmall : Env := { env0 with rtWidth := 4, rtHeight := 4 }

def paintConst7 : GrPaint := ⟨7, false, false, some 7⟩

def paintPlain : GrPaint := ⟨7, false, false, none⟩

def paintAA : GrPaint := ⟨7, true, false, none⟩

def styleStrokeMiter2 : GrStyle := ⟨false, ⟨StrokeStyle.strokeS, 2, JoinKind.miterJ⟩⟩

def styleStrokeRound2 : GrStyle := ⟨false, ⟨StrokeStyle.strokeS, 2, JoinKind.roundJ⟩⟩

/-- A shear matrix: invertible but not right-angle preserving. -/
def vmSkew : SkMatrix := ⟨1, 1, 0, 0, 1, 0⟩

/-- Nested-rect path whose margins are (1/2, 1/2 + 1/8192, 1/2, 1/2):
non-uniform, every side below one device unit. -/
def pathNestedTol : SkPath :=
  ⟨false, SkFillType.winding, false,
   some (⟨0, 0, 10, 10⟩, ⟨1/2, 1/2 + 1/8192, 19/2, 19/2⟩, true, false), none⟩

/-- Nested-rect path with a uniform margin of 2 device units. -/
def pathNestedUniform : SkPath :=
  ⟨false, SkFillType.winding, false,
   some (⟨0, 0, 10, 10⟩, ⟨2, 2, 8, 8⟩, true, false), none⟩

/-- Nested-rect path whose left margin is 1/2 and other margins 2. -/
def pathNestedSkewed : SkPath :=
  ⟨false, SkFillType.winding, false,
   some (⟨0, 0, 10, 10⟩, ⟨1/2, 2, 8, 8⟩, true, false), none⟩

/-- A style carrying a path effect over a stroke, for the three-tier witness. -/
def styleFX : GrStyle := ⟨true, ⟨StrokeStyle.strokeS, 1, JoinKind.miterJ⟩⟩

def pathRect1 : SkPath := SkPath.ofRect ⟨0, 0, 1, 1⟩

/- ------------------------------------------------------------------ -/
/- Helper lemmas.                                                      -/
/- ------------------------------------------------------------------ -/

theorem clearF_abn {n : Nat} {e : Env} {ro : Option SkIRect} {c : GrColor} {ign : Bool}
    {s : DCState} (h : e.abandoned = true) : clearF n e ro c ign s = s := by
  cases n <;> simp [clearF, h]

theorem drawRectF_abn {n : Nat} {e : Env} {clip : GrClip} {p : GrPaint} {vm : SkMatrix}
    {r : SkRect} {st : Option GrStyle} {s : DCState} (h : e.abandoned = true) :
    drawRectF n e clip p vm r st s = s := by
  cases n <;> simp [drawRectF, h]

theorem internalDrawPath_abn {e : Env} {clip : GrClip} {p : GrPaint} {vm : SkMatrix}
    {path : SkPath} {st : GrStyle} {s : DCState} (h : e.abandoned = true) :
    internalDrawPath e clip p vm path st s = (s, []) := by
  simp [internalDrawPath, h]

/-- On a backend without the draw-instead-of-clear workaround, clear does not
recurse, so its result does not depend on the fuel. -/
theorem clearF_noDraw {n : Nat} {e : Env} {ro : Option SkIRect} {c : GrColor}
    {ign : Bool} {s : DCState} (hud : e.caps.useDrawInsteadOfClear = false) :
    clearF (n + 1) e ro c ign s =
      if e.abandoned then s
      else
        match clearEffRect e ro ign with
        | none => s
        | some (rect, _) => emitOp (TOp.addBatch (GrBatch.clearB rect c)) (stepDT s) := by
  simp [clearF, hud]

/-- A fill-style drawRect at fuel at least 2 does not depend on the fuel. -/
theorem drawRectF_fill_fuel {n m : Nat} {e : Env} {clip : GrClip} {p : GrPaint}
    {vm : SkMatrix} {r : SkRect} {styleO : Option GrStyle} {s : DCState}
    (hfill : (styleO.getD GrStyle.simpleFill).strokeRec.style = StrokeStyle.fillS) :
    drawRectF (n + 2) e clip p vm r styleO s = drawRectF (m + 2) e clip p vm r styleO s := by
  by_cases hud : e.caps.useDrawInsteadOfClear = true
  · simp [drawRectF, hfill, hud]
  · simp only [Bool.not_eq_true] at hud
    simp [drawRectF, hfill, clearF_noDraw hud]

/- ------------------------------------------------------------------ -/
/- Claim theorems.                                                     -/
/- ------------------------------------------------------------------ -/

/-- C8: once the owning manager reports the context abandoned, every modelled
public entry point of the Draw Context returns immediately (false for the
Bool-returning entry), submits no batch, and leaves the state unchanged. -/
theorem C8_abandoned_noop :
    ∀ (c : Call) (e : Env) (s : DCState), e.abandoned = true →
      (dispatch c e s).1 = s ∧
        ((dispatch c e s).2 = none ∨ (dispatch c e s).2 = some false) := by
  intro c e s h
  cases c <;>
    simp [dispatch, clearC, drawRectC, clearF_abn h, drawRectF_abn h, drawRRectF,
      drawPaintF, drawPathF, drawBatchF, copySurfaceF, discardF, h]

/-- C8 witness: a concrete abandoned copySurface call. -/
theorem C8_abandoned_noop_witness :
    (dispatch (Call.copySurfaceE ⟨0, 0, 1, 1⟩ 0 0) envAb s0).1 = s0 ∧
      ((dispatch (Call.copySurfaceE ⟨0, 0, 1, 1⟩ 0 0) envAb s0).2 = none ∨
        (dispatch (Call.copySurfaceE ⟨0, 0, 1, 1⟩ 0 0) envAb s0).2 = some false) :=
  C8_abandoned_noop (Call.copySurfaceE ⟨0, 0, 1, 1⟩ 0 0) envAb s0 (by decide)

/-- C7: the filled-rect fast path returns false only when coverage AA applies
and the view matrix does not preserve right angles; in every other case (crop
skip, instanced accept, AA fill, non-AA fill) it returns true. -/
theorem C7_drawFilledRect_false_only_aa_skew :
    ∀ (e : Env) (clip : GrClip) (paint : GrPaint) (vm : SkMatrix) (rect : SkRect)
      (ss : Option Nat) (s : DCState),
      (drawFilledRect e clip paint vm rect ss s).1 = false →
      shouldApplyCoverageAA paint e = true ∧ vm.preservesRightAngles = false := by
  intro e clip paint vm rect ss s h
  unfold drawFilledRect at h
  split at h
  · simp at h
  · dsimp only at h
    split at h
    · simp at h
    · split at h
      · split at h
        · simp at h
        · rename_i hcAA hok
          exact ⟨hcAA, by simpa [view_matrix_ok_for_aa_fill_rect] using hok⟩
      · simp at h

/-- C7 witness: an AA paint with a shear matrix makes drawFilledRect fall back. -/
theorem C7_drawFilledRect_false_only_aa_skew_witness :
    (drawFilledRect env0 GrClip.noClip paintAA vmSkew ⟨0, 0, 1, 1⟩ none s0).1 = false ∧
      (shouldApplyCoverageAA paintAA env0 = true ∧ vmSkew.preservesRightAngles = false) :=
  ⟨by decide,
   C7_drawFilledRect_false_only_aa_skew env0 GrClip.noClip paintAA vmSkew ⟨0, 0, 1, 1⟩
     none s0 (by decide)⟩

/-- C5: a clear whose rect is null, or covers the whole target, or may be
ignored on a free-full-clear backend operates on the whole-target rect (it is
the same call as clear with a null rect); otherwise the rect is intersected
with the target bounds and an empty intersection makes the call a no-op. -/
theorem C5_clear_rect_selection :
    ∀ (e : Env) (r : SkIRect) (c : GrColor) (ign : Bool) (s : DCState),
      (((ign && e.caps.fullClearIsFree) || r.containsR e.rtIRect) = true →
        clearC e (some r) c ign s = clearC e none c ign s) ∧
      (((ign && e.caps.fullClearIsFree) || r.containsR e.rtIRect) = false →
        r.intersectO e.rtIRect = none →
        clearC e (some r) c ign s = s) := by
  intro e r c ign s
  constructor
  · intro h
    rcases Bool.or_eq_true_iff.mp h with h1 | h1
    · simp [clearC, clearF, clearEffRect, h1]
    · simp [clearC, clearF, clearEffRect, h1]
  · intro h h2
    rw [Bool.or_eq_false_iff] at h
    simp [clearC, clearF, clearEffRect, h.1, h.2, h2]

/-- C5 witness: a covering rect clears like a null rect; a rect outside the
target bounds no-ops. -/
theorem C5_clear_rect_selection_witness :
    clearC env0 (some ⟨0, 0, 200, 200⟩) 5 false s0 = clearC env0 none 5 false s0 ∧
      clearC env0 (some ⟨-5, -5, 0, 0⟩) 5 false s0 = s0 :=
  ⟨(C5_clear_rect_selection env0 ⟨0, 0, 200, 200⟩ 5 false s0).1 (by decide),
   (C5_clear_rect_selection env0 ⟨-5, -5, 0, 0⟩ 5 false s0).2 (by decide) (by decide)⟩

/-- C2: general path drawing queries the renderer chain in (at most) three
tiers — the unmodified shape without software, then (only when the style
carries a path effect) the path-effect-only shape without software, then the
fully-styled shape with software allowed — and when every tier yields no
renderer the draw submits no batch and leaves the state unchanged. -/
theorem C2_three_tier_fallback :
    ∀ (e : Env) (clip : GrClip) (paint : GrPaint) (vm : SkMatrix) (path : SkPath)
      (style : GrStyle) (s : DCState),
      e.abandoned = false →
      (shapeOf e path style).emptyShape = false →
      (tier2Shape e path style vm).emptyShape = false →
      (tier3Shape e path style vm).emptyShape = false →
      e.pathRendererFor
        ⟨shapeOf e path style, vm, shouldApplyCoverageAA paint e, false, e.rtStencilMSAA⟩
        false (shouldApplyCoverageAA paint e) = none →
      e.pathRendererFor
        ⟨tier2Shape e path style vm, vm, shouldApplyCoverageAA paint e, false, e.rtStencilMSAA⟩
        false (shouldApplyCoverageAA paint e) = none →
      e.pathRendererFor
        ⟨tier3Shape e path style vm, vm, shouldApplyCoverageAA paint e, false, e.rtStencilMSAA⟩
        true (shouldApplyCoverageAA paint e) = none →
      internalDrawPath e clip paint vm path style s =
        (s,
         [mkQuery (shapeOf e path style) vm (shouldApplyCoverageAA paint e) e.rtStencilMSAA false]
           ++ (if style.hasPathEffect then
                 [mkQuery (tier2Shape e path style vm) vm (shouldApplyCoverageAA paint e)
                   e.rtStencilMSAA false]
               else [])
           ++ [mkQuery (tier3Shape e path style vm) vm (shouldApplyCoverageAA paint e)
                 e.rtStencilMSAA true]) := by
  intro e clip paint vm path style s habn h0 h1e h2e hq1 hq2 hq3
  cases hpe : style.hasPathEffect <;> cases happ : style.strokeRec.needToApply <;>
    simp_all [internalDrawPath, idpTier2, idpTier3, idpFinish, shapeOf, applyStyleShape,
      tier2Shape, tier3Shape, mkQuery, GrStyle.applies]

/-- C2 witness: a path-effect-plus-stroke style on an environment whose chain
never accepts issues exactly the three tiered queries and changes nothing. -/
theorem C2_three_tier_fallback_witness :
    internalDrawPath env0 GrClip.noClip paintAA SkMatrix.I pathRect1 styleFX s0 =
      (s0,
       [mkQuery (shapeOf env0 pathRect1 styleFX) SkMatrix.I
          (shouldApplyCoverageAA paintAA env0) env0.rtStencilMSAA false]
         ++ (if styleFX.hasPathEffect then
               [mkQuery (tier2Shape env0 pathRect1 styleFX SkMatrix.I) SkMatrix.I
                 (shouldApplyCoverageAA paintAA env0) env0.rtStencilMSAA false]
             else [])
         ++ [mkQuery (tier3Shape env0 pathRect1 styleFX SkMatrix.I) SkMatrix.I
               (shouldApplyCoverageAA paintAA env0) env0.rtStencilMSAA true]) :=
  C2_three_tier_fallback env0 GrClip.noClip paintAA SkMatrix.I pathRect1 styleFX s0
    (by decide) (by decide) (by decide) (by decide) (by decide) (by decide) (by decide)

/-- C1 counterexample: on a backend with the draw-instead-of-clear workaround,
a fill drawRect satisfying all of the claim's conditions (full-coverage clip,
target corners inside the rect, constant blendable paint) is not the same as
clear(null, C, true): the degrade-to-clear check is skipped entirely. -/
theorem C1_counterexample :
    GrStyle.simpleFill.strokeRec.style = StrokeStyle.fillS ∧
    GrClip.noClip.quickContains envDrawInstead.rtRectQ = true ∧
    SkMatrix.I.invert = some SkMatrix.I ∧
    rect_contains_inclusive ⟨-1, -1, 5, 5⟩
      (SkMatrix.I.mapRectToQuad envDrawInstead.rtRectQ).1 = true ∧
    rect_contains_inclusive ⟨-1, -1, 5, 5⟩
      (SkMatrix.I.mapRectToQuad envDrawInstead.rtRectQ).2.1 = true ∧
    rect_contains_inclusive ⟨-1, -1, 5, 5⟩
      (SkMatrix.I.mapRectToQuad envDrawInstead.rtRectQ).2.2.1 = true ∧
    rect_contains_inclusive ⟨-1, -1, 5, 5⟩
      (SkMatrix.I.mapRectToQuad envDrawInstead.rtRectQ).2.2.2 = true ∧
    paintConst7.constBlendColor = some 7 ∧
    drawRectC envDrawInstead GrClip.noClip paintConst7 SkMatrix.I ⟨-1, -1, 5, 5⟩ none s0 ≠
      clearC envDrawInstead none 7 true s0 := by
  decide

/-- C1 (amended): on a backend without the draw-instead-of-clear workaround, a
fill-style drawRect whose clip quick-contains the whole target, whose rect
contains all four inverse-transformed target corners, and whose paint is a
constant blendable color C is the very same call as clear(null, C, true). -/
theorem C1_fill_drawRect_degrades_to_clear :
    ∀ (e : Env) (clip : GrClip) (paint : GrPaint) (vm : SkMatrix) (rect : SkRect)
      (styleO : Option GrStyle) (invM : SkMatrix) (c : GrColor) (s : DCState),
      e.caps.useDrawInsteadOfClear = false →
      (styleO.getD GrStyle.simpleFill).strokeRec.style = StrokeStyle.fillS →
      clip.quickContains e.rtRectQ = true →
      vm.invert = some invM →
      rect_contains_inclusive rect (invM.mapRectToQuad e.rtRectQ).1 = true →
      rect_contains_inclusive rect (invM.mapRectToQuad e.rtRectQ).2.1 = true →
      rect_contains_inclusive rect (invM.mapRectToQuad e.rtRectQ).2.2.1 = true →
      rect_contains_inclusive rect (invM.mapRectToQuad e.rtRectQ).2.2.2 = true →
      paint.constBlendColor = some c →
      drawRectC e clip paint vm rect styleO s = clearC e none c true s := by
  intro e clip paint vm rect styleO invM c s hud hfill hclip hinv hc1 hc2 hc3 hc4 hcb
  by_cases habn : e.abandoned = true
  · simp [drawRectC, clearC, drawRectF_abn habn, clearF_abn habn]
  · simp only [Bool.not_eq_true] at habn
    simp [drawRectC, clearC, drawRectF, hud, hfill, hclip, hinv, hc1, hc2, hc3, hc4, hcb,
      habn, clearF_noDraw hud]

/-- C1 witness: the amended degrade applies on a 4x4 plain backend. -/
theorem C1_fill_drawRect_degrades_to_clear_witness :
    drawRectC envSmall GrClip.noClip paintConst7 SkMatrix.I ⟨-1, -1, 5, 5⟩ none s0 =
      clearC envSmall none 7 true s0 :=
  C1_fill_drawRect_degrades_to_clear envSmall GrClip.noClip paintConst7 SkMatrix.I
    ⟨-1, -1, 5, 5⟩ none SkMatrix.I 7 s0 (by decide) (by decide) (by decide) (by decide)
    (by decide) (by decide) (by decide) (by decide) (by decide)

/-- C3 counterexample: a zero-height miter-join stroke of half-width 1 does not
produce the batch of a fill of the rect outset vertically only — the miter
branch outsets both axes. -/
theorem C3_counterexample :
    styleStrokeMiter2.strokeRec.style = StrokeStyle.strokeS ∧
    styleStrokeMiter2.strokeRec.join = JoinKind.miterJ ∧
    SkRect.height ⟨5, 10, 15, 10⟩ = 0 ∧
    styleStrokeMiter2.strokeRec.width / 2 = 1 ∧
    drawRectC env0 GrClip.noClip paintPlain SkMatrix.I ⟨5, 10, 15, 10⟩
        (some styleStrokeMiter2) s0 ≠
      drawRectC env0 GrClip.noClip paintPlain SkMatrix.I ⟨5, 9, 15, 11⟩
        (some GrStyle.simpleFill) s0 := by
  decide

/-- C3 (amended): a zero-height miter-join stroked drawRect is the same call as
a fill-style drawRect of the rect outset by the stroke half-width on both axes
(not the vertical axis only). -/
theorem C3_zero_height_miter_stroke :
    ∀ (e : Env) (clip : GrClip) (paint : GrPaint) (vm : SkMatrix) (rect : SkRect)
      (st : GrStyle) (s : DCState),
      st.strokeRec.style = StrokeStyle.strokeS →
      st.strokeRec.join = JoinKind.miterJ →
      rect.height = 0 →
      drawRectC e clip paint vm rect (some st) s =
        drawRectC e clip paint vm
          ⟨rect.l - st.strokeRec.width / 2, rect.t - st.strokeRec.width / 2,
           rect.r + st.strokeRec.width / 2, rect.b + st.strokeRec.width / 2⟩
          (some GrStyle.simpleFill) s := by
  intro e clip paint vm rect st s hst hj hh
  by_cases habn : e.abandoned = true
  · simp [drawRectC, drawRectF_abn habn]
  · simp only [Bool.not_eq_true] at habn
    have h2 :
        drawRectC e clip paint vm
            ⟨rect.l - st.strokeRec.width / 2, rect.t - st.strokeRec.width / 2,
             rect.r + st.strokeRec.width / 2, rect.b + st.strokeRec.width / 2⟩
            (some GrStyle.simpleFill) s =
          drawRectF 2 e clip paint vm
            ⟨rect.l - st.strokeRec.width / 2, rect.t - st.strokeRec.width / 2,
             rect.r + st.strokeRec.width / 2, rect.b + st.strokeRec.width / 2⟩
            (some GrStyle.simpleFill) s :=
      @drawRectF_fill_fuel 1 0 e clip paint vm _ (some GrStyle.simpleFill) s rfl
    rw [h2, drawRectC]
    simp only [SkRect.height] at hh
    simp [drawRectF, hst, hj, hh, habn, SkRect.height]

/-- C3 witness for the amended statement. -/
theorem C3_zero_height_miter_stroke_witness :
    drawRectC env0 GrClip.noClip paintPlain SkMatrix.I ⟨5, 10, 15, 10⟩
        (some styleStrokeMiter2) s0 =
      drawRectC env0 GrClip.noClip paintPlain SkMatrix.I
        ⟨5 - styleStrokeMiter2.strokeRec.width / 2, 10 - styleStrokeMiter2.strokeRec.width / 2,
         15 + styleStrokeMiter2.strokeRec.width / 2, 10 + styleStrokeMiter2.strokeRec.width / 2⟩
        (some GrStyle.simpleFill) s0 :=
  C3_zero_height_miter_stroke env0 GrClip.noClip paintPlain SkMatrix.I ⟨5, 10, 15, 10⟩
    styleStrokeMiter2 s0 (by decide) (by decide) (by decide)

/-- C10 counterexample: with both dimensions zero and a round join, the call
falls through to the bevel handling, but the recursively drawn degenerate fill
rect is cropped away, so the call submits nothing and is a no-op. -/
theorem C10_counterexample :
    SkRect.width ⟨3, 5, 3, 5⟩ = 0 ∧ SkRect.height ⟨3, 5, 3, 5⟩ = 0 ∧
    styleStrokeRound2.strokeRec.style = StrokeStyle.strokeS ∧
    styleStrokeRound2.strokeRec.join = JoinKind.roundJ ∧
    drawRectC env0 GrClip.noClip paintPlain SkMatrix.I ⟨3, 5, 3, 5⟩
      (some styleStrokeRound2) s0 = s0 := by
  decide

/-- C10 (amended): with both dimensions zero, the round join falls through to
the bevel handling and recurses into a fill-style drawRect of the rect expanded
horizontally by the stroke half-width (which may itself submit nothing when the
degenerate rect is cropped away). -/
theorem C10_round_join_degenerate_falls_to_bevel :
    ∀ (e : Env) (clip : GrClip) (paint : GrPaint) (vm : SkMatrix) (rect : SkRect)
      (st : GrStyle) (s : DCState),
      st.strokeRec.style = StrokeStyle.strokeS →
      st.strokeRec.join = JoinKind.roundJ →
      rect.width = 0 →
      rect.height = 0 →
      drawRectC e clip paint vm rect (some st) s =
        drawRectC e clip paint vm
          ⟨rect.l - st.strokeRec.width / 2, rect.t, rect.r + st.strokeRec.width / 2, rect.b⟩
          (some GrStyle.simpleFill) s := by
  intro e clip paint vm rect st s hst hj hw hh
  by_cases habn : e.abandoned = true
  · simp [drawRectC, drawRectF_abn habn]
  · simp only [Bool.not_eq_true] at habn
    have h2 :
        drawRectC e clip paint vm
            ⟨rect.l - st.strokeRec.width / 2, rect.t, rect.r + st.strokeRec.width / 2, rect.b⟩
            (some GrStyle.simpleFill) s =
          drawRectF 2 e clip paint vm
            ⟨rect.l - st.strokeRec.width / 2, rect.t, rect.r + st.strokeRec.width / 2, rect.b⟩
            (some GrStyle.simpleFill) s :=
      @drawRectF_fill_fuel 1 0 e clip paint vm _ (some GrStyle.simpleFill) s rfl
    rw [h2, drawRectC]
    simp only [SkRect.width, SkRect.height] at hw hh
    simp [drawRectF, hst, hj, hw, hh, habn, SkRect.width, SkRect.height]

/-- C10 witness for the amended statement. -/
theorem C10_round_join_degenerate_falls_to_bevel_witness :
    drawRectC env0 GrClip.noClip paintPlain SkMatrix.I ⟨3, 5, 3, 5⟩
        (some styleStrokeRound2) s0 =
      drawRectC env0 GrClip.noClip paintPlain SkMatrix.I
        ⟨3 - styleStrokeRound2.strokeRec.width / 2, 5,
         3 + styleStrokeRound2.strokeRec.width / 2, 5⟩
        (some GrStyle.simpleFill) s0 :=
  C10_round_join_degenerate_falls_to_bevel env0 GrClip.noClip paintPlain SkMatrix.I
    ⟨3, 5, 3, 5⟩ styleStrokeRound2 s0 (by decide) (by decide) (by decide) (by decide)

/-- C4 counterexample: margins (1/2, 1/2 + 1/8192, 1/2, 1/2) are non-uniform
and all below one device unit, yet the nested-rect AA batch is still selected,
because the uniformity test uses SkScalarNearlyEqual with tolerance 1/4096. -/
theorem C4_counterexample :
    pathNestedTol.nestedRects =
      some (⟨0, 0, 10, 10⟩, ⟨1/2, 1/2 + 1/8192, 19/2, 19/2⟩, true, false) ∧
    |(0 : ℚ) - 1/2| ≠ |(0 : ℚ) - (1/2 + 1/8192)| ∧
    |(0 : ℚ) - 1/2| < 1 ∧ |(0 : ℚ) - (1/2 + 1/8192)| < 1 ∧
    drawPathF env0 GrClip.noClip paintAA SkMatrix.I pathNestedTol GrStyle.simpleFill s0 =
      emitOp
        (TOp.drawBatchOp ⟨paintAA, false, none, false⟩ GrClip.noClip
          (GrBatch.aaFillNestedRects 7 SkMatrix.I ⟨0, 0, 10, 10⟩
            ⟨1/2, 1/2 + 1/8192, 19/2, 19/2⟩))
        (stepDT s0) := by
  decide

/-- C4 (amended): with coverage AA, a simple-fill style without path effect, and
a concave path of two axis-aligned nested rects of opposite winding: a uniform
inset margin of at least one device unit selects the nested-rect AA batch; a
margin that differs from the left-edge margin by more than the near-equality
tolerance (1/4096) on some side and is below one device unit on some side does
not select it, and the draw goes to general path drawing instead. -/
theorem C4_nested_rect_fast_path :
    (∀ (e : Env) (clip : GrClip) (paint : GrPaint) (vm : SkMatrix) (path : SkPath)
       (style : GrStyle) (r0 r1 : SkRect) (d0 d1 : Bool) (s : DCState),
       e.abandoned = false →
       shouldApplyCoverageAA paint e = true →
       style.hasPathEffect = false →
       style.isSimpleFill = true →
       path.isEmptyPath = false →
       path.isConvexPath = false →
       path.isInverseFillType = false →
       vm.rectStaysRect = true →
       path.nestedRects = some (r0, r1, d0, d1) →
       d0 ≠ d1 →
       |r0.t - r1.t| = |r0.l - r1.l| →
       |r0.r - r1.r| = |r0.l - r1.l| →
       |r0.b - r1.b| = |r0.l - r1.l| →
       1 ≤ |r0.l - r1.l| →
       drawPathF e clip paint vm path style s =
         emitOp
           (TOp.drawBatchOp ⟨paint, hwAAFromPaint paint e, none, false⟩ clip
             (GrBatch.aaFillNestedRects paint.color vm r0 r1))
           (stepDT s)) ∧
    (∀ (e : Env) (clip : GrClip) (paint : GrPaint) (vm : SkMatrix) (path : SkPath)
       (style : GrStyle) (r0 r1 : SkRect) (d0 d1 : Bool) (s : DCState),
       e.abandoned = false →
       shouldApplyCoverageAA paint e = true →
       style.hasPathEffect = false →
       style.isSimpleFill = true →
       path.isEmptyPath = false →
       path.isConvexPath = false →
       path.isInverseFillType = false →
       vm.rectStaysRect = true →
       path.ovalRect = none →
       path.nestedRects = some (r0, r1, d0, d1) →
       d0 ≠ d1 →
       (SK_ScalarNearlyZero < abs (|r0.l - r1.l| - |r0.t - r1.t|) ∨
        SK_ScalarNearlyZero < abs (|r0.l - r1.l| - |r0.r - r1.r|) ∨
        SK_ScalarNearlyZero < abs (|r0.l - r1.l| - |r0.b - r1.b|)) →
       (|r0.l - r1.l| < 1 ∨ |r0.t - r1.t| < 1 ∨ |r0.r - r1.r| < 1 ∨ |r0.b - r1.b| < 1) →
       drawPathF e clip paint vm path style s =
         (internalDrawPath e clip paint vm path style s).1) := by
  constructor
  · intro e clip paint vm path style r0 r1 d0 d1 s habn haa hpe hsf hne hcv hinvf hrs hnr
      hd hm1 hm2 hm3 hm4
    have hdd : decide (d0 = d1) = false := decide_eq_false hd
    have hf : fills_as_nested_rects vm path = some (r0, r1) := by
      simp [fills_as_nested_rects, hinvf, hrs, hnr, hdd, hm1, hm2, hm3, hm4]
    simp [drawPathF, habn, hne, haa, hpe, hsf, hcv, hf]
  · intro e clip paint vm path style r0 r1 d0 d1 s habn haa hpe hsf hne hcv hinvf hrs hov
      hnr hd hml hlt
    have hdd : decide (d0 = d1) = false := decide_eq_false hd
    have hf : fills_as_nested_rects vm path = none := by
      rcases hml with h1 | h1 | h1 <;> rcases hlt with h2 | h2 | h2 | h2 <;>
        simp [fills_as_nested_rects, hinvf, hrs, hnr, hdd, SkScalarNearlyEqual,
          decide_eq_false (not_le.mpr h1), decide_eq_false (not_le.mpr h2)]
    simp [drawPathF, drawPathOvalOrPath, habn, hne, haa, hpe, hsf, hcv, hf, hov]

/-- C4 witness: a uniform margin-2 pair selects the batch, and a pair whose
left margin is 1/2 against 2 elsewhere does not. -/
theorem C4_nested_rect_fast_path_witness :
    (drawPathF env0 GrClip.noClip paintAA SkMatrix.I pathNestedUniform GrStyle.simpleFill s0 =
      emitOp
        (TOp.drawBatchOp ⟨paintAA, hwAAFromPaint paintAA env0, none, false⟩ GrClip.noClip
          (GrBatch.aaFillNestedRects paintAA.color SkMatrix.I ⟨0, 0, 10, 10⟩ ⟨2, 2, 8, 8⟩))
        (stepDT s0)) ∧
    (drawPathF env0 GrClip.noClip paintAA SkMatrix.I pathNestedSkewed GrStyle.simpleFill s0 =
      (internalDrawPath env0 GrClip.noClip paintAA SkMatrix.I pathNestedSkewed
        GrStyle.simpleFill s0).1) :=
  ⟨C4_nested_rect_fast_path.1 env0 GrClip.noClip paintAA SkMatrix.I pathNestedUniform
     GrStyle.simpleFill ⟨0, 0, 10, 10⟩ ⟨2, 2, 8, 8⟩ true false s0 (by decide) (by decide)
     (by decide) (by decide) (by decide) (by decide) (by decide) (by decide) (by decide)
     (by decide) (by decide) (by decide) (by decide) (by decide),
   C4_nested_rect_fast_path.2 env0 GrClip.noClip paintAA SkMatrix.I pathNestedSkewed
     GrStyle.simpleFill ⟨0, 0, 10, 10⟩ ⟨1/2, 2, 8, 8⟩ true false s0 (by decide) (by decide)
     (by decide) (by decide) (by decide) (by decide) (by decide) (by decide) (by decide)
     (by decide) (by decide) (Or.inl (by decide)) (Or.inl (by decide))⟩

/-- The identity matrix maps a well-ordered rect to itself. -/
theorem mapRect_I {r : SkRect} (h1 : r.l ≤ r.r) (h2 : r.t ≤ r.b) :
    SkMatrix.I.mapRect r = r := by
  obtain ⟨l, t, rr, b⟩ := r
  simp only at h1 h2
  simp [SkMatrix.mapRect, SkMatrix.mapPt, SkMatrix.I, min_eq_left h1, min_eq_right h1,
    max_eq_right h1, max_eq_left h1, min_eq_left h2, min_eq_right h2, max_eq_right h2,
    max_eq_left h2]

/-- A non-empty rect inside another intersects to itself. -/
theorem intersectO_of_inside {a b : SkRect} (h1 : b.l ≤ a.l) (h2 : a.l < a.r)
    (h3 : a.r ≤ b.r) (h4 : b.t ≤ a.t) (h5 : a.t < a.b) (h6 : a.b ≤ b.b) :
    a.intersectO b = some a := by
  obtain ⟨al, at', ar, ab'⟩ := a
  simp only at h1 h2 h3 h4 h5 h6
  simp [SkRect.intersectO, max_eq_left h1, min_eq_left h3, max_eq_left h4, min_eq_left h6,
    h2, h5]

/-- Bounds extracted from a successful integer-rect intersection. -/
theorem intersectO_int_bounds {a b r : SkIRect} (h : SkIRect.intersectO a b = some r) :
    b.l ≤ r.l ∧ r.l < r.r ∧ r.r ≤ b.r ∧ b.t ≤ r.t ∧ r.t < r.b ∧ r.b ≤ b.b := by
  unfold SkIRect.intersectO at h
  split at h
  · rename_i hcond
    cases h
    simp only [SkIRect.isEmpty, Bool.and_eq_true, Bool.not_eq_true', Bool.or_eq_false_iff,
      decide_eq_true_eq, decide_eq_false_iff_not, not_le] at hcond
    obtain ⟨⟨⟨⟨⟨⟨ha1, ha2⟩, ⟨hb1, hb2⟩⟩, hab⟩, hba⟩, htb⟩, hbt⟩ := hcond
    refine ⟨?_, ?_, ?_, ?_, ?_, ?_⟩ <;> simp only [] <;> omega
  · exact Option.noConfusion h

/-- The whole-target flag of clearEffRect pins the rect to the target rect. -/
theorem clearEffRect_whole {e : Env} {ro : Option SkIRect} {ign : Bool} {rect : SkIRect}
    (h : clearEffRect e ro ign = some (rect, true)) : rect = e.rtIRect := by
  rcases ro with _ | r
  all_goals simp only [clearEffRect] at h
  · simp_all
  · rcases hint : SkIRect.intersectO r e.rtIRect with _ | cr
    · rw [hint] at h
      split at h
      · simp_all
      · split at h
        · simp_all
        · simp_all
    · rw [hint] at h
      split at h
      · simp_all
      · split at h
        · simp_all
        · simp_all

/-- A partial clearEffRect comes from intersecting the given rect with the
target bounds. -/
theorem clearEffRect_partial {e : Env} {ro : Option SkIRect} {ign : Bool} {rect : SkIRect}
    (h : clearEffRect e ro ign = some (rect, false)) :
    ∃ r, ro = some r ∧ SkIRect.intersectO r e.rtIRect = some rect := by
  rcases ro with _ | r
  all_goals simp only [clearEffRect] at h
  · exact absurd h (by simp)
  · refine ⟨r, rfl, ?_⟩
    rcases hint : SkIRect.intersectO r e.rtIRect with _ | cr
    · rw [hint] at h
      split at h
      · simp_all
      · split at h
        · simp_all
        · simp_all
    · rw [hint] at h
      split at h
      · simp_all
      · split at h
        · simp_all
        · simp_all

/-- The filled-rect draw that clear performs on a draw-instead-of-clear backend:
one non-clear batch through a src-mode paint, after two target touches. -/
theorem clear_inner_draw {n : Nat} {e : Env} {c : GrColor} {s1 : DCState}
    (hud : e.caps.useDrawInsteadOfClear = true) (habn : e.abandoned = false)
    (rect : SkIRect) (h1 : 0 ≤ rect.l) (h2 : rect.l < rect.r) (h3 : rect.r ≤ e.rtWidth)
    (h4 : 0 ≤ rect.t) (h5 : rect.t < rect.b) (h6 : rect.b ≤ e.rtHeight) :
    ∃ pb b, drawRectF (n + 1) e GrClip.noClip (clearPaint c) SkMatrix.I (SkRect.Make rect)
        none s1 = emitOp (TOp.drawBatchOp pb GrClip.noClip b) (stepDT (stepDT s1)) ∧
      pb.paint = clearPaint c ∧ ∀ rc cc, b ≠ GrBatch.clearB rc cc := by
  have hw : (0 : Int) < e.rtWidth := lt_of_le_of_lt h1 (lt_of_lt_of_le h2 h3)
  have hh : (0 : Int) < e.rtHeight := lt_of_le_of_lt h4 (lt_of_lt_of_le h5 h6)
  have hrs : SkMatrix.I.rectStaysRect = true := by decide
  have hinv : SkMatrix.I.invert = some SkMatrix.I := by decide
  have hmap : SkMatrix.I.mapRect (SkRect.Make (SkIRect.MakeWH e.rtWidth e.rtHeight)) =
      SkRect.Make (SkIRect.MakeWH e.rtWidth e.rtHeight) := by
    refine mapRect_I ?_ ?_ <;> simp [SkRect.Make, SkIRect.MakeWH] <;> exact_mod_cast le_of_lt ‹_›
  have hcrop : crop_filled_rect e GrClip.noClip SkMatrix.I (SkRect.Make rect) =
      some (SkRect.Make rect) := by
    simp only [crop_filled_rect, hrs, hinv, Bool.not_true, Bool.false_eq_true, if_false,
      GrClip.getConservativeBounds, hmap]
    refine intersectO_of_inside ?_ ?_ ?_ ?_ ?_ ?_ <;>
      simp [SkRect.Make, SkIRect.MakeWH] <;> exact_mod_cast ‹_›
  rcases hi : e.instanced with _ | ir
  · refine ⟨⟨clearPaint c, mustUseHWAA (clearPaint c) e, none, false⟩,
      GrBatch.nonAAFill c SkMatrix.I (SkRect.Make rect) none none, ?_, rfl, ?_⟩
    · simp [drawRectF, habn, hud, drawFilledRect, hcrop, hi, shouldApplyCoverageAA,
        clearPaint, drawNonAAFilledRect, GrStyle.simpleFill]
    · intro rc cc
      simp
  · rcases hrec : ir.recordRect (SkRect.Make rect) SkMatrix.I c false with _ | tb
    · refine ⟨⟨clearPaint c, mustUseHWAA (clearPaint c) e, none, false⟩,
        GrBatch.nonAAFill c SkMatrix.I (SkRect.Make rect) none none, ?_, rfl, ?_⟩
      · simp [drawRectF, habn, hud, drawFilledRect, hcrop, hi, hrec, shouldApplyCoverageAA,
          clearPaint, drawNonAAFilledRect, GrStyle.simpleFill]
      · intro rc cc
        simp
    · refine ⟨⟨clearPaint c, tb.2, none, false⟩, GrBatch.instancedB tb.1, ?_, rfl, ?_⟩
      · simp [drawRectF, habn, hud, drawFilledRect, hcrop, hi, hrec, clearPaint,
          GrStyle.simpleFill]
      · intro rc cc
        simp

/-- C6 counterexample: on a draw-instead-of-clear backend, a partial-rect clear
draws the filled rect but never discards the target's contents, refuting the
claim that every clear on such a backend discards them. -/
theorem C6_counterexample :
    envDrawInstead.caps.useDrawInsteadOfClear = true ∧
    (clearC envDrawInstead (some ⟨0, 0, 2, 2⟩) 7 false s0).log =
      [TOp.drawBatchOp ⟨clearPaint 7, false, none, false⟩ GrClip.noClip
        (GrBatch.nonAAFill 7 SkMatrix.I ⟨0, 0, 2, 2⟩ none none)] ∧
    TOp.discardOp ∉ (clearC envDrawInstead (some ⟨0, 0, 2, 2⟩) 7 false s0).log := by
  decide

/-- C6 (amended): on a must-draw-instead-of-clear backend with a non-empty
render target, clear never emits a clear batch; the whole-target case discards
the target's contents and then draws exactly one filled-rect batch with the
replace (src) paint; a partial-rect clear draws exactly one such batch without
discarding; an empty clipped rect submits nothing. -/
theorem C6_draw_instead_of_clear :
    ∀ (e : Env) (ro : Option SkIRect) (c : GrColor) (ign : Bool) (s : DCState),
      e.caps.useDrawInsteadOfClear = true →
      e.abandoned = false →
      0 < e.rtWidth → 0 < e.rtHeight →
      (clearEffRect e ro ign = none → clearC e ro c ign s = s) ∧
      (∀ rect, clearEffRect e ro ign = some (rect, true) →
        ∃ pb b, clearC e ro c ign s =
            emitOp (TOp.drawBatchOp pb GrClip.noClip b)
              (stepDT (stepDT (emitOp TOp.discardOp (stepDT s)))) ∧
          pb.paint = clearPaint c ∧ ∀ rc cc, b ≠ GrBatch.clearB rc cc) ∧
      (∀ rect, clearEffRect e ro ign = some (rect, false) →
        ∃ pb b, clearC e ro c ign s =
            emitOp (TOp.drawBatchOp pb GrClip.noClip b) (stepDT (stepDT s)) ∧
          pb.paint = clearPaint c ∧ ∀ rc cc, b ≠ GrBatch.clearB rc cc) := by
  intro e ro c ign s hud habn hw hh
  refine ⟨?_, ?_, ?_⟩
  · intro h
    simp [clearC, clearF, habn, h]
  · intro rect h
    have hrt := clearEffRect_whole h
    subst hrt
    have hmain : clearC e ro c ign s =
        drawRectF 2 e GrClip.noClip (clearPaint c) SkMatrix.I (SkRect.Make e.rtIRect) none
          (emitOp TOp.discardOp (stepDT s)) := by
      simp [clearC, clearF, habn, hud, h, discardF]
    rw [hmain]
    exact @clear_inner_draw 1 e c (emitOp TOp.discardOp (stepDT s)) hud habn e.rtIRect
      (le_refl 0) hw (le_refl _) (le_refl 0) hh (le_refl _)
  · intro rect h
    obtain ⟨r, hro, hint⟩ := clearEffRect_partial h
    obtain ⟨hb1, hb2, hb3, hb4, hb5, hb6⟩ := intersectO_int_bounds hint
    have hmain : clearC e ro c ign s =
        drawRectF 2 e GrClip.noClip (clearPaint c) SkMatrix.I (SkRect.Make rect) none s := by
      simp [clearC, clearF, habn, hud, h]
    rw [hmain]
    exact @clear_inner_draw 1 e c s hud habn rect hb1 hb2 hb3 hb4 hb5 hb6

/-- C6 witness: a whole-target clear on the 4x4 workaround backend. -/
theorem C6_draw_instead_of_clear_witness :
    ∃ pb b, clearC envDrawInstead none 7 true s0 =
        emitOp (TOp.drawBatchOp pb GrClip.noClip b)
          (stepDT (stepDT (emitOp TOp.discardOp (stepDT s0)))) ∧
      pb.paint = clearPaint 7 ∧ ∀ rc cc, b ≠ GrBatch.clearB rc cc :=
  (C6_draw_instead_of_clear envDrawInstead none 7 true s0 (by decide) (by decide)
      (by decide) (by decide)).2.1 ⟨0, 0, 4, 4⟩ (by decide)

theorem ts_emitOp (o : TOp) (s : DCState) : (emitOp o s).ts = s.ts := rfl

/-- getDrawTarget keeps the target-handle invariant. -/
theorem inv_getDT {ts : TargetState} (h : TSInvB ts = true) :
    TSInvB (getDrawTarget ts).2 = true := by
  unfold getDrawTarget
  split
  · unfold TSInvB TargetState.alloc TargetState.isClosedId at *
    simp only [Bool.and_eq_true, List.all_eq_true, decide_eq_true_eq] at *
    refine ⟨by simp, fun i hi => Nat.lt_succ_of_lt (h.2 i hi)⟩
  · exact h

theorem inv_stepDT {s : DCState} (h : TSInvB s.ts = true) : TSInvB (stepDT s).ts = true :=
  inv_getDT h

theorem ts_idpFinish {aa : Bool} {sh : GrShape} {pr : Option Nat} {qs : List PRQuery}
    {s : DCState} : (idpFinish aa sh pr qs s).1.ts = s.ts := by
  unfold idpFinish
  cases pr <;> simp [ts_emitOp, emitOp]

theorem ts_idpTier3 {e : Env} {vm : SkMatrix} {aa msaa : Bool} {scale : Scalar}
    {sh : GrShape} {qs : List PRQuery} {s : DCState} :
    (idpTier3 e vm aa msaa scale sh qs s).1.ts = s.ts := by
  unfold idpTier3
  repeat' (first | split | dsimp only)
  all_goals simp [ts_idpFinish]

theorem ts_idpTier2 {e : Env} {vm : SkMatrix} {aa msaa : Bool} {scale : Scalar}
    {sh0 : GrShape} {pr1 : Option Nat} {qs : List PRQuery} {s : DCState} :
    (idpTier2 e vm aa msaa scale sh0 pr1 qs s).1.ts = s.ts := by
  unfold idpTier2
  repeat' (first | split | dsimp only)
  all_goals simp [ts_idpFinish, ts_idpTier3]

theorem ts_idp {e : Env} {clip : GrClip} {p : GrPaint} {vm : SkMatrix} {path : SkPath}
    {st : GrStyle} {s : DCState} : (internalDrawPath e clip p vm path st s).1.ts = s.ts := by
  unfold internalDrawPath
  repeat' (first | split | dsimp only)
  all_goals simp [ts_idpTier2]

theorem inv_idp {e : Env} {clip : GrClip} {p : GrPaint} {vm : SkMatrix} {path : SkPath}
    {st : GrStyle} {s : DCState} (h : TSInvB s.ts = true) :
    TSInvB (internalDrawPath e clip p vm path st s).1.ts = true := by
  rw [ts_idp]
  exact h

theorem inv_drawNonAA {e : Env} {clip : GrClip} {p : GrPaint} {vm : SkMatrix} {r : SkRect}
    {lr : Option SkRect} {lm : Option SkMatrix} {ss : Option Nat} {s : DCState}
    (h : TSInvB s.ts = true) :
    TSInvB (drawNonAAFilledRect e clip p vm r lr lm ss s).ts = true := by
  unfold drawNonAAFilledRect
  rw [ts_emitOp]
  exact inv_stepDT h

theorem inv_drawFilledRect {e : Env} {clip : GrClip} {p : GrPaint} {vm : SkMatrix}
    {r : SkRect} {ss : Option Nat} {s : DCState} (h : TSInvB s.ts = true) :
    TSInvB (drawFilledRect e clip p vm r ss s).2.ts = true := by
  unfold drawFilledRect
  repeat' (first | split | dsimp only)
  all_goals
    first
    | exact h
    | (rw [ts_emitOp]; exact inv_stepDT (inv_stepDT h))
    | exact inv_stepDT h
    | exact inv_drawNonAA (inv_stepDT h)

theorem inv_strokeRectDirect {e : Env} {clip : GrClip} {p : GrPaint} {vm : SkMatrix}
    {r : SkRect} {stroke : SkStrokeRec} {st : GrStyle} {s : DCState}
    (h : TSInvB s.ts = true) :
    TSInvB (strokeRectDirect e clip p vm r stroke st s).ts = true := by
  unfold strokeRectDirect
  repeat' (first | split | dsimp only)
  all_goals
    first
    | (rw [ts_emitOp]; exact inv_stepDT h)
    | exact inv_idp h

theorem inv_drawRRectCover {e : Env} {clip : GrClip} {p : GrPaint} {vm : SkMatrix}
    {rr : RRectT} {st : GrStyle} {s : DCState} (h : TSInvB s.ts = true) :
    TSInvB (drawRRectCover e clip p vm rr st s).ts = true := by
  unfold drawRRectCover
  repeat' (first | split | dsimp only)
  all_goals
    first
    | (rw [ts_emitOp]; exact inv_stepDT h)
    | exact inv_idp h

theorem inv_drawRRectF {e : Env} {clip : GrClip} {p : GrPaint} {vm : SkMatrix}
    {rr : RRectT} {st : GrStyle} {s : DCState} (h : TSInvB s.ts = true) :
    TSInvB (drawRRectF e clip p vm rr st s).ts = true := by
  unfold drawRRectF
  repeat' (first | split | dsimp only)
  all_goals
    first
    | exact h
    | (rw [ts_emitOp]; exact inv_stepDT (inv_stepDT (inv_stepDT h)))
    | exact inv_drawRRectCover (inv_stepDT (inv_stepDT h))
    | exact inv_drawRRectCover (inv_stepDT h)

theorem inv_discardF {e : Env} {s : DCState} (h : TSInvB s.ts = true) :
    TSInvB (discardF e s).ts = true := by
  unfold discardF
  split
  · exact h
  · rw [ts_emitOp]
    exact inv_stepDT h

/-- clear and drawRect keep the target-handle invariant, at every fuel. -/
theorem inv_clear_drawRect :
    ∀ n : Nat,
      (∀ (e : Env) (ro : Option SkIRect) (c : GrColor) (ign : Bool) (s : DCState),
        TSInvB s.ts = true → TSInvB (clearF n e ro c ign s).ts = true) ∧
      (∀ (e : Env) (clip : GrClip) (p : GrPaint) (vm : SkMatrix) (r : SkRect)
        (st : Option GrStyle) (s : DCState),
        TSInvB s.ts = true → TSInvB (drawRectF n e clip p vm r st s).ts = true) := by
  intro n
  induction n with
  | zero => exact ⟨fun _ _ _ _ _ h => h, fun _ _ _ _ _ _ _ h => h⟩
  | succ n ih =>
    constructor
    · intro e ro c ign s h
      simp only [clearF]
      repeat' (first | split | dsimp only)
      all_goals
        first
        | exact h
        | (rw [ts_emitOp]; exact inv_stepDT h)
        | exact ih.2 _ _ _ _ _ _ _ (inv_discardF h)
        | exact ih.2 _ _ _ _ _ _ _ h
    · intro e clip p vm r st s h
      simp only [drawRectF]
      split
      · exact h
      · split
        · -- fill style: the handled option, then the filled-rect fast path
          split
          · rename_i s2 heq
            split at heq
            · exact absurd heq (by simp)
            · split at heq
              · split at heq
                · injection heq with heq2
                  rw [← heq2]
                  exact h
                · split at heq
                  · split at heq
                    · injection heq with heq2
                      rw [← heq2]
                      exact ih.1 _ _ _ _ _ h
                    · exact absurd heq (by simp)
                  · exact absurd heq (by simp)
              · exact absurd heq (by simp)
          · split
            · rename_i s2 heq
              have h2 := @inv_drawFilledRect e clip p vm r none s h
              rw [heq] at h2
              exact h2
            · rename_i s2 heq
              have h2 := @inv_drawFilledRect e clip p vm r none s h
              rw [heq] at h2
              exact inv_idp h2
        · split
          · -- stroke or hairline
            split
            · -- degenerate rect: the join switch
              split
              · exact ih.2 _ _ _ _ _ _ _ h
              · split
                · exact inv_drawRRectF h
                · split
                  · exact ih.2 _ _ _ _ _ _ _ h
                  · exact ih.2 _ _ _ _ _ _ _ h
              · split
                · exact ih.2 _ _ _ _ _ _ _ h
                · exact ih.2 _ _ _ _ _ _ _ h
            · exact inv_strokeRectDirect h
          · exact inv_idp h

theorem inv_drawPaintF {e : Env} {clip : GrClip} {p : GrPaint} {vm : SkMatrix}
    {s : DCState} (h : TSInvB s.ts = true) : TSInvB (drawPaintF e clip p vm s).ts = true := by
  unfold drawPaintF
  repeat' (first | split | dsimp only)
  all_goals
    first
    | exact h
    | exact (inv_clear_drawRect 3).2 _ _ _ _ _ _ _ h

theorem inv_drawPathOvalOrPath {e : Env} {clip : GrClip} {p : GrPaint} {vm : SkMatrix}
    {path : SkPath} {st : GrStyle} {s : DCState} (h : TSInvB s.ts = true) :
    TSInvB (drawPathOvalOrPath e clip p vm path st s).ts = true := by
  unfold drawPathOvalOrPath
  repeat' (first | split | dsimp only)
  all_goals
    first
    | exact inv_idp h
    | (rw [ts_emitOp]; exact inv_stepDT h)

theorem inv_drawPathF {e : Env} {clip : GrClip} {p : GrPaint} {vm : SkMatrix}
    {path : SkPath} {st : GrStyle} {s : DCState} (h : TSInvB s.ts = true) :
    TSInvB (drawPathF e clip p vm path st s).ts = true := by
  unfold drawPathF
  repeat' (first | split | dsimp only)
  all_goals
    first
    | exact h
    | exact inv_drawPaintF h
    | exact inv_idp h
    | exact inv_drawPathOvalOrPath h
    | (rw [ts_emitOp]; exact inv_stepDT h)

/-- C9: every modelled public entry point preserves the invariant that a held
open draw-target handle is the render target's most-recently-issued one; and
getDrawTarget yields an open handle, requesting a fresh target from the manager
exactly when the held one is null or closed, and leaving it unchanged
otherwise. -/
theorem C9_target_invariant :
    (∀ (c : Call) (e : Env) (s : DCState), TSInvB s.ts = true →
       TSInvB (dispatch c e s).1.ts = true) ∧
    (∀ ts : TargetState, TSInvB ts = true →
       (getDrawTarget ts).2.held = some (getDrawTarget ts).1 ∧
       (getDrawTarget ts).2.isClosedId (getDrawTarget ts).1 = false ∧
       TSInvB (getDrawTarget ts).2 = true ∧
       (ts.needsNew = true → getDrawTarget ts = ts.alloc) ∧
       (ts.needsNew = false →
         (getDrawTarget ts).2 = ts ∧ ts.held = some (getDrawTarget ts).1)) := by
  constructor
  · intro c e s h
    cases c with
    | clearE ro color ign => exact (inv_clear_drawRect 3).1 _ _ _ _ _ h
    | discardE => exact inv_discardF h
    | drawRectE clip paint vm rect styleO => exact (inv_clear_drawRect 3).2 _ _ _ _ _ _ _ h
    | drawRRectE clip paint vm rr style => exact inv_drawRRectF h
    | drawPaintE clip paint vm => exact inv_drawPaintF h
    | drawPathE clip paint vm path style => exact inv_drawPathF h
    | drawBatchE pb clip b =>
      simp only [dispatch, drawBatchF]
      split
      · exact h
      · rw [ts_emitOp]
        exact inv_stepDT h
    | copySurfaceE srcRect dx dy =>
      simp only [dispatch, copySurfaceF]
      split
      · exact h
      · rw [ts_emitOp]
        exact inv_stepDT h
  · intro ts h
    unfold getDrawTarget
    split
    · rename_i hneed
      have hcon : ts.closed.contains ts.nextId = false := by
        cases hc : ts.closed.contains ts.nextId with
        | false => rfl
        | true =>
          exfalso
          have hmem : ts.nextId ∈ ts.closed := List.mem_of_elem_eq_true hc
          have hb : ts.closed.all (fun i => decide (i < ts.nextId)) = true := by
            unfold TSInvB at h
            exact (Bool.and_eq_true_iff.mp h).2
          have hlt := List.all_eq_true.mp hb ts.nextId hmem
          simp only [decide_eq_true_eq] at hlt
          exact lt_irrefl _ hlt
      refine ⟨rfl, hcon, ?_, fun _ => rfl, fun hf => ?_⟩
      · unfold TSInvB TargetState.alloc TargetState.isClosedId at *
        simp only [Bool.and_eq_true, List.all_eq_true, decide_eq_true_eq] at *
        exact ⟨by simp, fun i hi => Nat.lt_succ_of_lt (h.2 i hi)⟩
      · rw [hneed] at hf
        exact absurd hf (by simp)
    · rename_i hneed
      have hnn : ts.needsNew = false := by
        simp only [Bool.not_eq_true] at hneed
        exact hneed
      refine ⟨?_, ?_, h, ?_, ?_⟩
      · unfold TargetState.needsNew at hnn
        rcases hh : ts.held with _ | t
        · rw [hh] at hnn
          exact absurd hnn (by simp)
        · simp [hh]
      · unfold TargetState.needsNew at hnn
        rcases hh : ts.held with _ | t
        · rw [hh] at hnn
          exact absurd hnn (by simp)
        · rw [hh] at hnn
          simp only [hh, Option.getD_some]
          exact hnn
      · intro hf
        rw [hnn] at hf
        exact absurd hf (by simp)
      · intro _
        rcases hh : ts.held with _ | t
        · unfold TargetState.needsNew at hnn
          rw [hh] at hnn
          exact absurd hnn (by simp)
        · simp [hh]

/-- C9 witness: a concrete discard preserves the invariant, and a closed held
handle triggers exactly one fresh allocation. -/
theorem C9_target_invariant_witness :
    TSInvB (dispatch Call.discardE env0 s0).1.ts = true ∧
      ((getDrawTarget ts1).2.held = some (getDrawTarget ts1).1 ∧
       (getDrawTarget ts1).2.isClosedId (getDrawTarget ts1).1 = false ∧
       TSInvB (getDrawTarget ts1).2 = true ∧
       (ts1.needsNew = true → getDrawTarget ts1 = ts1.alloc) ∧
       (ts1.needsNew = false →
         (getDrawTarget ts1).2 = ts1 ∧ ts1.held = some (getDrawTarget ts1).1)) :=
  ⟨C9_target_invariant.1 Call.discardE env0 s0 (by decide),
   C9_target_invariant.2 ts1 (by decide)⟩

end Skia
